import Mathlib

/-!
Shallow embedding of the Upbit new-listing watcher (src/1.py) and proofs
about its change-detection and notification engine.

The embedding mirrors the Python source function by function:

* `detect_new_markets`, `passes_prefix_filter`, `notify_new_markets`,
  `notify_new_notices`, `fetch_listing_notices`, `bootstrap_baseline`,
  `send_message`, `mark_ok` / `mark_fail` / `health` keep the source's
  names.
* External collaborators are parameters: HTTP fetch outcomes are explicit
  inputs (`Except Unit _` for calls whose exceptions the loop catches,
  `NoticeFetch` for the notice page request whose request-level errors the
  adapter itself catches), the SHA-256 hex digest from `hashlib` is an
  opaque function argument `hash : String → String`, and the Telegram
  dispatch outcome is a boolean input.
* Python `set` values become `Finset String`; `sorted(...)` becomes
  `Finset.sort (· ≤ ·)` (both orders are lexicographic on code points);
  dict field access with `.get(k, "")` becomes `Option.getD`; the
  `info[mk]` lookup that can raise `KeyError` becomes an `Option`-valued
  lookup, with `none` modelling the raised exception.
* The body of `main_loop`'s `while` is `runCycle` (one iteration, split
  into the critical `market_step` and the non-critical `notice_step`);
  `runCycles` iterates it over a list of per-cycle inputs.
-/

namespace UpbitBot

/-- A row of the market catalog JSON: `{market, english_name, korean_name}`.
`market` is always present (the code indexes on it); the two name fields
are read with `.get(key, "")` in the source, so they are optional here. -/
structure MarketRecord where
  market : String
  english_name : Option String
  korean_name : Option String
deriving DecidableEq, Repr

/-- An `<a href=...>` element of the notice page, as handed over by the
HTML parser: its text content and its `href` attribute. -/
structure Anchor where
  text : String
  href : String
deriving DecidableEq, Repr

/-- A scraped notice: `{"id": uniq, "title": title, "url": href}`. -/
structure NoticeItem where
  id : String
  title : String
  url : String
deriving DecidableEq, Repr

/-- Configuration read from the environment: `FILTER_MARKETS` (already
normalized to upper-case prefixes ending in `-`) and the optional
`TG_CHAT_ID`. -/
structure Config where
  filter_markets : List String
  chat_id : Option String
deriving DecidableEq, Repr

def UPBIT_MARKETS_URL : String := "https://api.upbit.com/v1/market/all"

/-! Character-list implementations of the string primitives the source
uses (`upper`, `lower`, `startswith`, `strip`, slicing, `join`). They
agree with Python's on the data at hand; ASCII-only case mapping. -/

/-- ASCII upper-casing of one character. -/
def charUpper (c : Char) : Char :=
  if 97 ≤ c.toNat ∧ c.toNat ≤ 122 then Char.ofNat (c.toNat - 32) else c

/-- ASCII lower-casing of one character. -/
def charLower (c : Char) : Char :=
  if 65 ≤ c.toNat ∧ c.toNat ≤ 90 then Char.ofNat (c.toNat + 32) else c

/-- Python `s.upper()`. -/
def upperStr (s : String) : String := String.mk (s.data.map charUpper)

/-- Python `s.lower()` (what matching under `re.I` amounts to here). -/
def lowerStr (s : String) : String := String.mk (s.data.map charLower)

/-- Python `s.startswith(p)`. -/
def startsWithStr (s p : String) : Bool := p.data.isPrefixOf s.data

/-- Python `s.strip()`. -/
def trimStr (s : String) : String :=
  String.mk (((s.data.dropWhile Char.isWhitespace).reverse.dropWhile
    Char.isWhitespace).reverse)

/-- Python `s[:n]`. -/
def takeStr (s : String) (n : Nat) : String := String.mk (s.data.take n)

/-- Python `sep.join(xs)`. -/
def joinSep (sep : String) : List String → String
  | [] => ""
  | [x] => x
  | x :: y :: t => x ++ sep ++ joinSep sep (y :: t)

/-- Source `_passes_prefix_filter`: `any(up.startswith(pref) for pref in FILTER_MARKETS)`
after upper-casing the code. -/
def passes_prefix_filter (filter_markets : List String) (market_code : String) : Bool :=
  filter_markets.any (fun pref => startsWithStr (upperStr market_code) pref)

/-- Lexicographic code-point comparison of character lists — the order
Python's `sorted` uses on strings. -/
def charListLe : List Char → List Char → Bool
  | [], _ => true
  | _ :: _, [] => false
  | a :: as, b :: bs =>
    if a.toNat < b.toNat then true
    else if b.toNat < a.toNat then false
    else charListLe as bs

/-- String comparison by code points. -/
def strLe (a b : String) : Bool := charListLe a.data b.data

/-- Insert into a `strLe`-ascending list, keeping it ascending. -/
def insertAsc (a : String) : List String → List String
  | [] => [a]
  | b :: t => if strLe a b then a :: b :: t else b :: insertAsc a t

/-- Python's `sorted` on a list of strings (insertion sort; agrees with any
stable ascending sort on the duplicate-free inputs it is applied to). -/
def sortStrings : List String → List String
  | [] => []
  | a :: t => insertAsc a (sortStrings t)

/-- Source `detect_new_markets`: `current = {m["market"] for m in markets}`;
returns `(sorted(current - old_set), current)`. The sorted set difference
is computed from the duplicate-free enumeration of the codes. -/
def detect_new_markets (old_set : Finset String) (markets : List MarketRecord) :
    List String × Finset String :=
  let codes := (markets.map (fun m => m.market)).dedup
  (sortStrings (codes.filter (fun c => decide (c ∉ old_set))),
   (markets.map (fun m => m.market)).toFinset)

/-- The dict comprehension `info = {m["market"]: m for m in markets}` followed
by the lookup `info[mk]`: in a Python dict comprehension the last record
with a given key wins, and a missing key raises `KeyError`, modelled by
`none`. -/
def recordsIndex (markets : List MarketRecord) (code : String) : Option MarketRecord :=
  markets.reverse.find? (fun m => m.market == code)

/-- One bullet line of the market message:
`f"• {mk} — {eng} / {kor}"` with the names defaulted to `""`. -/
def marketLine (code : String) (m : MarketRecord) : String :=
  "• " ++ code ++ " — " ++ m.english_name.getD "" ++ " / " ++ m.korean_name.getD ""

/-- The `for mk in filtered:` loop building `lines`; a failed `info[mk]`
lookup (`KeyError`) aborts the whole construction, hence `Option`. -/
def build_lines (markets : List MarketRecord) : List String → Option (List String)
  | [] => some []
  | mk :: rest =>
    match recordsIndex markets mk with
    | none => none
    | some m => (build_lines markets rest).map (fun ls => marketLine mk m :: ls)

/-- Python `p.rstrip('-')`: drop every trailing dash. -/
def rstripDash (s : String) : String :=
  String.mk ((s.data.reverse.dropWhile (fun c => c == '-')).reverse)

/-- Source `notify_new_markets`: filters `new_markets` by the prefix filter; if the
filtered list is empty it returns without sending. Otherwise it builds the
message. The outer `Option` is exception-freedom (a `KeyError` while
building the lines yields `none`); the inner `Option` is the text passed
to `send_message`, `none` when nothing is sent. -/
def notify_new_markets (filter_markets : List String) (new_markets : List String)
    (markets : List MarketRecord) : Option (Option String) :=
  let filtered := new_markets.filter (passes_prefix_filter filter_markets)
  if filtered.isEmpty then some none
  else
    (build_lines markets filtered).map (fun lines => some (
      "🆕 Upbit: новые рынки ("
        ++ joinSep "," (filter_markets.map rstripDash) ++ ")\n"
        ++ joinSep "\n" lines
        ++ "\n\nИсточник API: " ++ UPBIT_MARKETS_URL))

/-- Source `notify_new_notices`: no-op on an empty list, otherwise one message with
a `• title\n  url` block per item, blocks separated by blank lines. -/
def notify_new_notices (new_items : List NoticeItem) : Option String :=
  if new_items.isEmpty then none
  else some ("📢 Upbit: новое объявление о листинге (KRW/USDT):\n"
    ++ joinSep "\n\n"
        (new_items.map (fun it => "• " ++ it.title ++ "\n  " ++ it.url)))

/-! ### Notice-page scraping (`fetch_listing_notices`) -/

/-- Does `whitespace* ++ b` occur as a prefix of the list? This is the tail
of matching the regex fragment `\s*B` at a position. -/
def wsGapPrefixOf (b : List Char) : List Char → Bool
  | [] => b.isEmpty
  | c :: t => b.isPrefixOf (c :: t) || (c.isWhitespace && wsGapPrefixOf b t)

/-- Python `re.search` of the pattern `A\s*B` over a character list: some position
starts with `a`, then optional whitespace, then `b`. With `b = []` this is
plain substring search for `a`. -/
def searchGap (a b : List Char) : List Char → Bool
  | [] => a.isEmpty && wsGapPrefixOf b []
  | c :: t =>
    (a.isPrefixOf (c :: t) && wsGapPrefixOf b ((c :: t).drop a.length))
      || searchGap a b t

/-- The listing-keyword test:
`re.search(r"(상장|리스트|listing|마켓\s*추가|market\s*support|new\s*listing)", title, re.I)`.
Case-insensitivity is realised by lower-casing the title (the ASCII
alternatives are written lower-case; Korean has no case). -/
def listing_keyword_search (title : String) : Bool :=
  let t := (lowerStr title).data
  searchGap "상장".data [] t || searchGap "리스트".data [] t
    || searchGap "listing".data [] t
    || searchGap "마켓".data "추가".data t
    || searchGap "market".data "support".data t
    || searchGap "new".data "listing".data t

/-- Source `NOTICE_MARKET_PATTERN.search(title)`:
`re.compile(r"(KRW|원화|USDT|테더|유에스디티)", re.I)`. -/
def notice_market_search (title : String) : Bool :=
  let t := (lowerStr title).data
  searchGap "krw".data [] t || searchGap "원화".data [] t
    || searchGap "usdt".data [] t || searchGap "테더".data [] t
    || searchGap "유에스디티".data [] t

/-- Relative links are made absolute:
`if href.startswith("/"): href = "https://upbit.com" + href`. -/
def resolveHref (href : String) : String :=
  if startsWithStr href "/" then "https://upbit.com" ++ href else href

/-- The body of the anchor loop in `fetch_listing_notices`: trim the text,
skip empty title or href, resolve the link, apply the two title filters,
and fingerprint with
`hashlib.sha256((title + "|" + href).encode()).hexdigest()[:16]`
(the hex digest is the opaque `hash` argument). -/
def noticeOfAnchor (hash : String → String) (a : Anchor) : Option NoticeItem :=
  let title := trimStr a.text
  if title.data.isEmpty || a.href.data.isEmpty then none
  else
    let href := resolveHref a.href
    if listing_keyword_search title then
      if notice_market_search title then
        some { id := takeStr (hash (title ++ "|" ++ href)) 16
               title := title
               url := href }
      else none
    else none

/-- Outcome of the HTTP GET of the notice page, as seen by the adapter:
either the parsed anchors of the returned page, or one of the two request
failures the adapter catches itself. -/
inductive NoticeFetch where
  | ok (anchors : List Anchor)
  | timeout
  | reqError
deriving DecidableEq, Repr

/-- Source `fetch_listing_notices`: request-level failures are caught inside the
adapter and yield `[]`; on success every anchor is run through the filter
chain. -/
def fetch_listing_notices (hash : String → String) : NoticeFetch → List NoticeItem
  | .timeout => []
  | .reqError => []
  | .ok anchors => anchors.filterMap (noticeOfAnchor hash)

/-! ### Health status and Telegram dispatch -/

/-- The process-wide globals `last_cycle_ok` / `last_cycle_at`. -/
structure Status where
  last_cycle_ok : Bool
  last_cycle_at : Option String
deriving DecidableEq, Repr

/-- Module initialisation: `last_cycle_ok = True`, `last_cycle_at = None`. -/
def initialStatus : Status := { last_cycle_ok := true, last_cycle_at := none }

/-- Source `mark_ok`: sets the flag true and stamps the current time. -/
def mark_ok (now : String) (_st : Status) : Status :=
  { last_cycle_ok := true, last_cycle_at := some now }

/-- Source `mark_fail`: only flips the flag. -/
def mark_fail (st : Status) : Status :=
  { st with last_cycle_ok := false }

/-- The `/health` endpoint body:
`{"ok": last_cycle_ok, "last_cycle_at": last_cycle_at, "filter_markets": FILTER_MARKETS}`. -/
def health (st : Status) (filter_markets : List String) :
    Bool × Option String × List String :=
  (st.last_cycle_ok, st.last_cycle_at, filter_markets)

/-- What became of one `send_message` call. -/
inductive SendOutcome where
  | skippedNoChat
  | delivered
  | errorLogged
deriving DecidableEq, Repr

/-- Source `send_message`: without a chat id it logs and returns; otherwise it
attempts the Telegram call and catches any exception, so the function is
total — no outcome propagates to the caller. -/
def send_message (chat_id : Option String) (dispatchOk : Bool) (_text : String) :
    SendOutcome :=
  match chat_id with
  | none => .skippedNoChat
  | some _ => if dispatchOk then .delivered else .errorLogged

/-! ### The poll loop (`main_loop`) -/

/-- The mutable state the loop owns: the two in-memory known sets and the
contents of the two cache files (`none` = file absent or unreadable). The
file body written by `save_cache` is `sorted(list(s))` for a set `s`;
since that sorted, duplicate-free rendering determines the set and vice
versa, a present document is modelled by the set it lists. -/
structure LoopState where
  known_markets : Finset String
  known_notice_ids : Finset String
  markets_doc : Option (Finset String)
  notices_doc : Option (Finset String)
deriving DecidableEq

/-- The external inputs of one iteration of the `while True` body:
the outcome of `fetch_markets()` (`.error` = the exception the critical
`try` catches), the outcome of the notice step (`.error` = an unexpected
exception inside the non-critical `try`, `.ok nf` = the notice page
request outcome handed to `fetch_listing_notices`), the timestamp
`datetime.now(...)` would produce, and whether the Telegram dispatch
succeeds this cycle. -/
structure CycleInput where
  marketsFetch : Except Unit (List MarketRecord)
  noticesStep : Except Unit NoticeFetch
  now : String
  dispatchOk : Bool

/-- Result of the critical market step of a cycle. -/
structure MarketStepOut where
  st : LoopState
  notified : List String
  sends : List (String × SendOutcome)
  ok : Bool

/-- The first `try` block of the cycle: fetch, diff, notify, persist. A
fetch error or a `KeyError` escaping `notify_new_markets` lands in the
`except` branch (`ok := false`, state untouched). When there are new
markets the baseline is replaced by the unfiltered current set and saved
as `sorted(list(known_markets))`; `notified` records the filtered codes
whose lines went into the message. -/
def market_step (cfg : Config) (st : LoopState) (dispatchOk : Bool) :
    Except Unit (List MarketRecord) → MarketStepOut
  | .error _ => { st := st, notified := [], sends := [], ok := false }
  | .ok markets =>
    let res := detect_new_markets st.known_markets markets
    if res.1.isEmpty then { st := st, notified := [], sends := [], ok := true }
    else
      match notify_new_markets cfg.filter_markets res.1 markets with
      | none => { st := st, notified := [], sends := [], ok := false }
      | some msgOpt =>
        { st := { st with
            known_markets := res.2
            markets_doc := some res.2 }
          notified := res.1.filter (passes_prefix_filter cfg.filter_markets)
          sends := match msgOpt with
            | none => []
            | some text => [(text, send_message cfg.chat_id dispatchOk text)]
          ok := true }

/-- Result of the non-critical notice step of a cycle. -/
structure NoticeStepOut where
  st : LoopState
  notified : List NoticeItem
  sends : List (String × SendOutcome)
  ok : Bool

/-- The second `try` block of the cycle: fetch notices, keep the items whose
id is not yet known, notify them, extend the known set with their ids and
save it sorted. -/
def notice_step (hash : String → String) (cfg : Config) (st : LoopState)
    (dispatchOk : Bool) : Except Unit NoticeFetch → NoticeStepOut
  | .error _ => { st := st, notified := [], sends := [], ok := false }
  | .ok nf =>
    let notices := fetch_listing_notices hash nf
    let fresh := notices.filter (fun n => decide (n.id ∉ st.known_notice_ids))
    if fresh.isEmpty then { st := st, notified := [], sends := [], ok := true }
    else
      let known' := st.known_notice_ids ∪ ((fresh.map (fun n => n.id)).toFinset)
      { st := { st with
          known_notice_ids := known'
          notices_doc := some known' }
        notified := fresh
        sends := match notify_new_notices fresh with
          | none => []
          | some text => [(text, send_message cfg.chat_id dispatchOk text)]
        ok := true }

/-- Everything observable about one iteration of the loop body. -/
structure CycleResult where
  state : LoopState
  status : Status
  notifiedMarkets : List String
  notifiedNotices : List NoticeItem
  sends : List (String × SendOutcome)

/-- One iteration of `while True`: market step, then notice step, then
`mark_ok()` / `mark_fail()` driven solely by `markets_ok`. -/
def runCycle (hash : String → String) (cfg : Config) (st : LoopState)
    (status : Status) (inp : CycleInput) : CycleResult :=
  let m := market_step cfg st inp.dispatchOk inp.marketsFetch
  let n := notice_step hash cfg m.st inp.dispatchOk inp.noticesStep
  { state := n.st
    status := if m.ok then mark_ok inp.now status else mark_fail status
    notifiedMarkets := m.notified
    notifiedNotices := n.notified
    sends := m.sends ++ n.sends }

/-- The accumulated observables of a finite run of the loop. -/
structure RunResult where
  state : LoopState
  status : Status
  notifiedMarketsAll : List String
  notifiedNoticesAll : List NoticeItem

/-- Iterating the loop body over a list of per-cycle inputs, collecting
every code and notice item ever passed to the notifier. -/
def runCycles (hash : String → String) (cfg : Config) (st : LoopState)
    (status : Status) : List CycleInput → RunResult
  | [] => { state := st, status := status
            notifiedMarketsAll := [], notifiedNoticesAll := [] }
  | inp :: rest =>
    let r := runCycle hash cfg st status inp
    let rr := runCycles hash cfg r.state r.status rest
    { state := rr.state
      status := rr.status
      notifiedMarketsAll := r.notifiedMarkets ++ rr.notifiedMarketsAll
      notifiedNoticesAll := r.notifiedNotices ++ rr.notifiedNoticesAll }

/-! ### Bootstrap and startup (`bootstrap_baseline`, `__main__`) -/

/-- The two cache files (`none` = absent); a present file is modelled by
the set whose sorted listing it contains. -/
structure Docs where
  markets_doc : Option (Finset String)
  notices_doc : Option (Finset String)
deriving DecidableEq

/-- What `bootstrap_baseline` produced: the cache files afterwards and the
texts it passed to `send_message` (it passes none). -/
structure BootstrapOut where
  docs : Docs
  sends : List (String × SendOutcome)

/-- Source `bootstrap_baseline`: each source is fetched inside its own `try`; on
success the full current state is saved sorted and de-duplicated, on
failure the corresponding file is left as it was. The Notifier is never
called. -/
def bootstrap_baseline (hash : String → String)
    (marketsFetch : Except Unit (List MarketRecord))
    (noticesFetch : Except Unit NoticeFetch) (d : Docs) : BootstrapOut :=
  let d1 := match marketsFetch with
    | .error _ => d
    | .ok markets =>
      let current_markets := (markets.map (fun m => m.market)).toFinset
      { d with markets_doc := some current_markets }
  let d2 := match noticesFetch with
    | .error _ => d1
    | .ok nf =>
      let notices := fetch_listing_notices hash nf
      let ids := (notices.map (fun n => n.id)).toFinset
      { d1 with notices_doc := some ids }
  { docs := d2, sends := [] }

/-- Outcome of the `__main__` pre-loop check. -/
structure StartupOut where
  docs : Docs
  bootstrapRan : Bool

/-- The `__main__` guard:
`if not os.path.exists(CACHE_FILE) or not os.path.exists(NOTICES_CACHE_FILE): bootstrap_baseline()`.
A file exists exactly when its document is `some`. -/
def startup_check (hash : String → String)
    (marketsFetch : Except Unit (List MarketRecord))
    (noticesFetch : Except Unit NoticeFetch) (d : Docs) : StartupOut :=
  if d.markets_doc.isNone || d.notices_doc.isNone then
    { docs := (bootstrap_baseline hash marketsFetch noticesFetch d).docs
      bootstrapRan := true }
  else
    { docs := d, bootstrapRan := false }

/-- The head of `main_loop`: `known_markets = set(load_cache(...)["markets"])`
and likewise for the notice ids, with the empty default when a file is
absent or unreadable. -/
def initLoopState (d : Docs) : LoopState :=
  { known_markets := d.markets_doc.getD ∅
    known_notice_ids := d.notices_doc.getD ∅
    markets_doc := d.markets_doc
    notices_doc := d.notices_doc }

/-! ### Concrete fixtures used by individual claims -/

def c1Records : List MarketRecord :=
  [ { market := "KRW-BTC", english_name := some "Bitcoin", korean_name := some "비트코인" },
    { market := "KRW-ETH", english_name := some "Ethereum", korean_name := some "이더리움" },
    { market := "JPY-XRP", english_name := some "Ripple", korean_name := some "리플" } ]

def c1Cfg : Config := { filter_markets := ["KRW-", "USDT-"], chat_id := some "42" }

def c1St : LoopState :=
  { known_markets := {"KRW-BTC"}, known_notice_ids := ∅
    markets_doc := some {"KRW-BTC"}, notices_doc := some ∅ }

def c1Inp : CycleInput :=
  { marketsFetch := .ok c1Records, noticesStep := .ok (.ok [])
    now := "2026-10-12T00:00:00+00:00", dispatchOk := true }

def c3Cfg : Config := { filter_markets := ["KRW-", "USDT-"], chat_id := some "42" }

def c3St : LoopState :=
  { known_markets := ∅, known_notice_ids := ∅
    markets_doc := some ∅, notices_doc := some ∅ }

def c3RecA : MarketRecord :=
  { market := "KRW-AAA", english_name := some "Aaa", korean_name := none }

def c3RecB : MarketRecord :=
  { market := "KRW-BBB", english_name := some "Bbb", korean_name := none }

def c3Inp1 : CycleInput :=
  { marketsFetch := .ok [c3RecA], noticesStep := .ok (.ok []), now := "t1", dispatchOk := true }

def c3Inp2 : CycleInput :=
  { marketsFetch := .ok [c3RecB], noticesStep := .ok (.ok []), now := "t2", dispatchOk := true }

def c4Cfg : Config := { filter_markets := ["KRW-", "USDT-"], chat_id := some "42" }

def c4St : LoopState :=
  { known_markets := ∅, known_notice_ids := ∅
    markets_doc := some ∅, notices_doc := some ∅ }

def c4Anchor : Anchor :=
  { text := "New listing: KRW market support for ABC", href := "/service_center/notice?id=1" }

def c4AnchorAbs : Anchor :=
  { text := "  New listing: KRW market support for ABC "
    href := "https://upbit.com/service_center/notice?id=1" }

def c4Item : NoticeItem :=
  { id := "New listing: KRW"
    title := "New listing: KRW market support for ABC"
    url := "https://upbit.com/service_center/notice?id=1" }

def c4Inp : CycleInput :=
  { marketsFetch := .ok [], noticesStep := .ok (.ok [c4Anchor, c4Anchor])
    now := "t1", dispatchOk := true }

def c5Cfg : Config := { filter_markets := ["KRW-"], chat_id := some "42" }

def c5St : LoopState :=
  { known_markets := {"KRW-BTC"}, known_notice_ids := ∅
    markets_doc := some {"KRW-BTC"}, notices_doc := some ∅ }

def c5Inp : CycleInput :=
  { marketsFetch := .error (), noticesStep := .ok (.ok []), now := "t1", dispatchOk := true }

def c5Inp2 : CycleInput :=
  { marketsFetch := .ok [{ market := "KRW-BTC", english_name := none, korean_name := none }]
    noticesStep := .ok (.ok []), now := "t2", dispatchOk := true }

def c6Cfg : Config := { filter_markets := ["KRW-"], chat_id := some "42" }

def c6St : LoopState :=
  { known_markets := ∅, known_notice_ids := ∅
    markets_doc := some ∅, notices_doc := some ∅ }

def c6Inp : CycleInput :=
  { marketsFetch := .ok [], noticesStep := .error (), now := "t1", dispatchOk := true }

def c6Inp' : CycleInput :=
  { marketsFetch := .ok [], noticesStep := .ok .timeout, now := "t1", dispatchOk := true }

def c9Cfg : Config := { filter_markets := ["KRW-", "USDT-"], chat_id := none }

def c9St : LoopState :=
  { known_markets := ∅, known_notice_ids := ∅
    markets_doc := some ∅, notices_doc := some ∅ }

def c9Inp : CycleInput :=
  { marketsFetch := .error (), noticesStep := .ok (.ok []), now := "t1", dispatchOk := true }

def c10Records : List MarketRecord :=
  [ { market := "KRW-NEW", english_name := none, korean_name := none } ]

/-! ### Helper lemmas -/

theorem mem_insertAsc {x a : String} : ∀ {l : List String},
    x ∈ insertAsc a l ↔ x = a ∨ x ∈ l := by
  intro l
  induction l with
  | nil => simp [insertAsc]
  | cons b t ih =>
    simp only [insertAsc]
    split
    · simp
    · simp only [List.mem_cons, ih]
      tauto

theorem mem_sortStrings {x : String} : ∀ {l : List String},
    x ∈ sortStrings l ↔ x ∈ l := by
  intro l
  induction l with
  | nil => simp [sortStrings]
  | cons a t ih => simp [sortStrings, mem_insertAsc, ih]

theorem mem_detect_fst {old : Finset String} {ms : List MarketRecord} {c : String} :
    c ∈ (detect_new_markets old ms).1 ↔ (∃ m ∈ ms, m.market = c) ∧ c ∉ old := by
  simp [detect_new_markets, mem_sortStrings, List.mem_filter, List.mem_dedup,
    List.mem_map]

theorem mem_detect_snd {old : Finset String} {ms : List MarketRecord} {c : String} :
    c ∈ (detect_new_markets old ms).2 ↔ ∃ m ∈ ms, m.market = c := by
  simp [detect_new_markets, List.mem_toFinset, List.mem_map]

theorem detect_fst_subset_snd {old : Finset String} {ms : List MarketRecord} {c : String}
    (h : c ∈ (detect_new_markets old ms).1) : c ∈ (detect_new_markets old ms).2 :=
  mem_detect_snd.mpr (mem_detect_fst.mp h).1

theorem recordsIndex_eq_some_of_mem {ms : List MarketRecord} {c : String}
    (h : ∃ m ∈ ms, m.market = c) :
    ∃ m, recordsIndex ms c = some m ∧ m.market = c := by
  obtain ⟨m, hm, hmc⟩ := h
  have hsome : (ms.reverse.find? (fun m => m.market == c)).isSome := by
    rw [List.find?_isSome]
    exact ⟨m, by simpa using hm, by simp [hmc]⟩
  obtain ⟨r, hr⟩ := Option.isSome_iff_exists.mp hsome
  refine ⟨r, hr, ?_⟩
  simpa using List.find?_some hr

theorem build_lines_isSome {ms : List MarketRecord} : ∀ {codes : List String},
    (∀ c ∈ codes, ∃ m, recordsIndex ms c = some m) →
    (build_lines ms codes).isSome := by
  intro codes
  induction codes with
  | nil => intro _; rfl
  | cons mk rest ih =>
    intro h
    obtain ⟨m, hm⟩ := h mk (by simp)
    have hrest := ih (fun c hc => h c (by simp [hc]))
    obtain ⟨ls, hls⟩ := Option.isSome_iff_exists.mp hrest
    simp [build_lines, hm, hls]

theorem notify_detect_isSome (flt : List String) (old : Finset String)
    (ms : List MarketRecord) :
    (notify_new_markets flt (detect_new_markets old ms).1 ms).isSome := by
  unfold notify_new_markets
  dsimp only
  split
  · rfl
  · have hb : (build_lines ms
        ((detect_new_markets old ms).1.filter (passes_prefix_filter flt))).isSome := by
      apply build_lines_isSome
      intro c hc
      have hmem : c ∈ (detect_new_markets old ms).1 := List.mem_of_mem_filter hc
      obtain ⟨m, hm, _⟩ := recordsIndex_eq_some_of_mem (mem_detect_fst.mp hmem).1
      exact ⟨m, hm⟩
    obtain ⟨ls, hls⟩ := Option.isSome_iff_exists.mp hb
    simp [hls]

theorem market_step_error (cfg : Config) (st : LoopState) (d : Bool) (e : Unit) :
    market_step cfg st d (.error e) =
      { st := st, notified := [], sends := [], ok := false } := rfl

theorem market_step_ok_true (cfg : Config) (st : LoopState) (d : Bool)
    (ms : List MarketRecord) : (market_step cfg st d (.ok ms)).ok = true := by
  unfold market_step
  dsimp only
  split
  · rfl
  · rcases hn : notify_new_markets cfg.filter_markets
        (detect_new_markets st.known_markets ms).1 ms with _ | msgOpt
    · have := notify_detect_isSome cfg.filter_markets st.known_markets ms
      rw [hn] at this
      exact absurd this (by simp)
    · simp [hn]

theorem market_step_ok_st (cfg : Config) (st : LoopState) (d : Bool)
    (ms : List MarketRecord) :
    (market_step cfg st d (.ok ms)).st =
      if (detect_new_markets st.known_markets ms).1.isEmpty then st
      else { st with known_markets := (detect_new_markets st.known_markets ms).2
                     markets_doc := some (detect_new_markets st.known_markets ms).2 } := by
  unfold market_step
  dsimp only
  split
  · simp [*]
  · rcases hn : notify_new_markets cfg.filter_markets
        (detect_new_markets st.known_markets ms).1 ms with _ | msgOpt
    · have := notify_detect_isSome cfg.filter_markets st.known_markets ms
      rw [hn] at this
      exact absurd this (by simp)
    · simp [hn, *]

theorem market_step_ok_notified (cfg : Config) (st : LoopState) (d : Bool)
    (ms : List MarketRecord) :
    (market_step cfg st d (.ok ms)).notified =
      (detect_new_markets st.known_markets ms).1.filter
        (passes_prefix_filter cfg.filter_markets) := by
  unfold market_step
  dsimp only
  split
  · rename_i hemp
    rw [List.isEmpty_iff] at hemp
    simp [hemp]
  · rcases hn : notify_new_markets cfg.filter_markets
        (detect_new_markets st.known_markets ms).1 ms with _ | msgOpt
    · have := notify_detect_isSome cfg.filter_markets st.known_markets ms
      rw [hn] at this
      exact absurd this (by simp)
    · simp [hn]

theorem market_step_keeps_notices (cfg : Config) (st : LoopState) (d : Bool)
    (mf : Except Unit (List MarketRecord)) :
    (market_step cfg st d mf).st.known_notice_ids = st.known_notice_ids ∧
    (market_step cfg st d mf).st.notices_doc = st.notices_doc := by
  cases mf with
  | error e => simp [market_step_error]
  | ok ms =>
    rw [market_step_ok_st]
    split <;> simp

theorem market_step_dispatch_irrel (cfg : Config) (st : LoopState) (d d' : Bool)
    (mf : Except Unit (List MarketRecord)) :
    (market_step cfg st d mf).st = (market_step cfg st d' mf).st ∧
    (market_step cfg st d mf).notified = (market_step cfg st d' mf).notified ∧
    (market_step cfg st d mf).ok = (market_step cfg st d' mf).ok := by
  cases mf with
  | error e => simp [market_step_error]
  | ok ms =>
    refine ⟨?_, ?_, ?_⟩
    · rw [market_step_ok_st, market_step_ok_st]
    · rw [market_step_ok_notified, market_step_ok_notified]
    · rw [market_step_ok_true, market_step_ok_true]

theorem notice_step_error (hash : String → String) (cfg : Config) (st : LoopState)
    (d : Bool) (e : Unit) :
    notice_step hash cfg st d (.error e) =
      { st := st, notified := [], sends := [], ok := false } := rfl

theorem notice_step_keeps_markets (hash : String → String) (cfg : Config)
    (st : LoopState) (d : Bool) (ns : Except Unit NoticeFetch) :
    (notice_step hash cfg st d ns).st.known_markets = st.known_markets ∧
    (notice_step hash cfg st d ns).st.markets_doc = st.markets_doc := by
  cases ns with
  | error e => simp [notice_step_error]
  | ok nf =>
    unfold notice_step
    dsimp only
    split <;> simp

theorem notice_step_known_mono (hash : String → String) (cfg : Config)
    (st : LoopState) (d : Bool) (ns : Except Unit NoticeFetch) :
    st.known_notice_ids ⊆ (notice_step hash cfg st d ns).st.known_notice_ids := by
  cases ns with
  | error e => simp [notice_step_error]
  | ok nf =>
    unfold notice_step
    dsimp only
    split
    · exact Finset.Subset.refl _
    · exact Finset.subset_union_left

theorem notice_step_notified_fresh (hash : String → String) (cfg : Config)
    (st : LoopState) (d : Bool) (ns : Except Unit NoticeFetch) :
    ∀ n ∈ (notice_step hash cfg st d ns).notified, n.id ∉ st.known_notice_ids := by
  cases ns with
  | error e => simp [notice_step_error]
  | ok nf =>
    unfold notice_step
    dsimp only
    split
    · simp
    · intro n hn
      have := (List.mem_filter.mp hn).2
      simpa using this

theorem notice_step_notified_known (hash : String → String) (cfg : Config)
    (st : LoopState) (d : Bool) (ns : Except Unit NoticeFetch) :
    ∀ n ∈ (notice_step hash cfg st d ns).notified,
      n.id ∈ (notice_step hash cfg st d ns).st.known_notice_ids := by
  cases ns with
  | error e => simp [notice_step_error]
  | ok nf =>
    unfold notice_step
    dsimp only
    split
    · simp
    · intro n hn
      apply Finset.mem_union_right
      simp only [List.mem_toFinset, List.mem_map]
      exact ⟨n, hn, rfl⟩

theorem notice_step_sends_le_one (hash : String → String) (cfg : Config)
    (st : LoopState) (d : Bool) (ns : Except Unit NoticeFetch) :
    (notice_step hash cfg st d ns).sends.length ≤ 1 := by
  cases ns with
  | error e => simp [notice_step_error]
  | ok nf =>
    unfold notice_step
    dsimp only
    split
    · simp
    · split <;> simp

theorem notice_step_dispatch_irrel (hash : String → String) (cfg : Config)
    (st : LoopState) (d d' : Bool) (ns : Except Unit NoticeFetch) :
    (notice_step hash cfg st d ns).st = (notice_step hash cfg st d' ns).st ∧
    (notice_step hash cfg st d ns).notified = (notice_step hash cfg st d' ns).notified ∧
    (notice_step hash cfg st d ns).ok = (notice_step hash cfg st d' ns).ok := by
  cases ns with
  | error e => simp [notice_step_error]
  | ok nf =>
    unfold notice_step
    dsimp only
    split <;> simp

theorem runCycle_status (hash : String → String) (cfg : Config) (st : LoopState)
    (status : Status) (inp : CycleInput) :
    (runCycle hash cfg st status inp).status =
      if (market_step cfg st inp.dispatchOk inp.marketsFetch).ok then mark_ok inp.now status
      else mark_fail status := rfl

theorem runCycle_state (hash : String → String) (cfg : Config) (st : LoopState)
    (status : Status) (inp : CycleInput) :
    (runCycle hash cfg st status inp).state =
      (notice_step hash cfg (market_step cfg st inp.dispatchOk inp.marketsFetch).st
        inp.dispatchOk inp.noticesStep).st := rfl

theorem runCycle_notifiedMarkets (hash : String → String) (cfg : Config)
    (st : LoopState) (status : Status) (inp : CycleInput) :
    (runCycle hash cfg st status inp).notifiedMarkets =
      (market_step cfg st inp.dispatchOk inp.marketsFetch).notified := rfl

theorem runCycle_notifiedNotices (hash : String → String) (cfg : Config)
    (st : LoopState) (status : Status) (inp : CycleInput) :
    (runCycle hash cfg st status inp).notifiedNotices =
      (notice_step hash cfg (market_step cfg st inp.dispatchOk inp.marketsFetch).st
        inp.dispatchOk inp.noticesStep).notified := rfl

theorem runCycle_notice_mono (hash : String → String) (cfg : Config) (st : LoopState)
    (status : Status) (inp : CycleInput) :
    st.known_notice_ids ⊆ (runCycle hash cfg st status inp).state.known_notice_ids := by
  rw [runCycle_state]
  have hkeep := (market_step_keeps_notices cfg st inp.dispatchOk inp.marketsFetch).1
  rw [← hkeep]
  exact notice_step_known_mono hash cfg _ inp.dispatchOk inp.noticesStep

theorem runCycle_notified_notices_known (hash : String → String) (cfg : Config)
    (st : LoopState) (status : Status) (inp : CycleInput) :
    ∀ n ∈ (runCycle hash cfg st status inp).notifiedNotices,
      n.id ∈ (runCycle hash cfg st status inp).state.known_notice_ids := by
  rw [runCycle_state, runCycle_notifiedNotices]
  exact notice_step_notified_known hash cfg _ inp.dispatchOk inp.noticesStep

theorem runCycles_nil (hash : String → String) (cfg : Config) (st : LoopState)
    (status : Status) :
    runCycles hash cfg st status [] =
      { state := st, status := status
        notifiedMarketsAll := [], notifiedNoticesAll := [] } := rfl

theorem runCycles_cons (hash : String → String) (cfg : Config) (st : LoopState)
    (status : Status) (inp : CycleInput) (rest : List CycleInput) :
    runCycles hash cfg st status (inp :: rest) =
      { state := (runCycles hash cfg (runCycle hash cfg st status inp).state
          (runCycle hash cfg st status inp).status rest).state
        status := (runCycles hash cfg (runCycle hash cfg st status inp).state
          (runCycle hash cfg st status inp).status rest).status
        notifiedMarketsAll := (runCycle hash cfg st status inp).notifiedMarkets
          ++ (runCycles hash cfg (runCycle hash cfg st status inp).state
              (runCycle hash cfg st status inp).status rest).notifiedMarketsAll
        notifiedNoticesAll := (runCycle hash cfg st status inp).notifiedNotices
          ++ (runCycles hash cfg (runCycle hash cfg st status inp).state
              (runCycle hash cfg st status inp).status rest).notifiedNoticesAll } := rfl

theorem runCycles_notice_mono (hash : String → String) (cfg : Config) :
    ∀ (inps : List CycleInput) (st : LoopState) (status : Status),
      st.known_notice_ids ⊆ (runCycles hash cfg st status inps).state.known_notice_ids := by
  intro inps
  induction inps with
  | nil => intro st status; rw [runCycles_nil]
  | cons inp rest ih =>
    intro st status
    rw [runCycles_cons]
    exact Finset.Subset.trans (runCycle_notice_mono hash cfg st status inp) (ih _ _)

theorem runCycles_notified_notices_known (hash : String → String) (cfg : Config) :
    ∀ (inps : List CycleInput) (st : LoopState) (status : Status),
      ∀ n ∈ (runCycles hash cfg st status inps).notifiedNoticesAll,
        n.id ∈ (runCycles hash cfg st status inps).state.known_notice_ids := by
  intro inps
  induction inps with
  | nil => intro st status n hn; rw [runCycles_nil] at hn; exact absurd hn (by simp)
  | cons inp rest ih =>
    intro st status n hn
    rw [runCycles_cons] at hn ⊢
    dsimp only at hn ⊢
    rcases List.mem_append.mp hn with h | h
    · exact runCycles_notice_mono hash cfg rest _ _
        (runCycle_notified_notices_known hash cfg st status inp n h)
    · exact ih _ _ n h

/-! ### Claims -/

/-- C1: for a cycle with known-market baseline `{"KRW-BTC"}`, fetched codes
`{"KRW-BTC","KRW-ETH","JPY-XRP"}` and prefixes `["KRW-","USDT-"]`, the set
of codes passed to the notification send is exactly `{"KRW-ETH"}` while
the persisted baseline becomes `{"KRW-BTC","KRW-ETH","JPY-XRP"}`; in
general the prefix filter applies to the new-market diff only for
notification, and when anything new is detected the unfiltered current
code set replaces the baseline (memory and persisted document). -/
theorem C1_prefix_filter_notify_only :
    ((runCycle (fun s => s) c1Cfg c1St initialStatus c1Inp).notifiedMarkets = ["KRW-ETH"]
      ∧ (runCycle (fun s => s) c1Cfg c1St initialStatus c1Inp).state.known_markets
          = {"KRW-BTC", "KRW-ETH", "JPY-XRP"}
      ∧ (runCycle (fun s => s) c1Cfg c1St initialStatus c1Inp).state.markets_doc
          = some {"KRW-BTC", "KRW-ETH", "JPY-XRP"})
    ∧ ∀ (hash : String → String) (cfg : Config) (st : LoopState) (status : Status)
        (inp : CycleInput) (ms : List MarketRecord),
        inp.marketsFetch = .ok ms →
        (runCycle hash cfg st status inp).notifiedMarkets
            = (detect_new_markets st.known_markets ms).1.filter
                (passes_prefix_filter cfg.filter_markets)
          ∧ ((detect_new_markets st.known_markets ms).1 ≠ [] →
              (runCycle hash cfg st status inp).state.known_markets
                  = (detect_new_markets st.known_markets ms).2
                ∧ (runCycle hash cfg st status inp).state.markets_doc
                  = some (detect_new_markets st.known_markets ms).2) := by
  constructor
  · exact ⟨by decide, by decide, by decide⟩
  · intro hash cfg st status inp ms hm
    constructor
    · rw [runCycle_notifiedMarkets, hm, market_step_ok_notified]
    · intro hne
      have hemp : (detect_new_markets st.known_markets ms).1.isEmpty = false := by
        cases h : (detect_new_markets st.known_markets ms).1 with
        | nil => exact absurd h hne
        | cons a t => rfl
      constructor
      · rw [runCycle_state,
          (notice_step_keeps_markets hash cfg _ inp.dispatchOk inp.noticesStep).1,
          hm, market_step_ok_st, hemp]
        simp
      · rw [runCycle_state,
          (notice_step_keeps_markets hash cfg _ inp.dispatchOk inp.noticesStep).2,
          hm, market_step_ok_st, hemp]
        simp

/-- Witness for C1: the general part applied to the concrete cycle. -/
theorem C1_prefix_filter_notify_only_witness :
    (runCycle (fun s => s) c1Cfg c1St initialStatus c1Inp).notifiedMarkets
      = (detect_new_markets c1St.known_markets c1Records).1.filter
          (passes_prefix_filter c1Cfg.filter_markets) :=
  (C1_prefix_filter_notify_only.2 (fun s => s) c1Cfg c1St initialStatus c1Inp
    c1Records rfl).1

/-- C5: a failed market fetch marks the cycle `ok: false` and leaves both
the in-memory known-market set and the persisted market document
untouched; any later cycle whose market step succeeds marks `ok: true`
again. -/
theorem C5_market_fetch_failure (hash : String → String) (cfg : Config)
    (st : LoopState) (status : Status) (inp : CycleInput)
    (hf : inp.marketsFetch = .error ()) :
    (runCycle hash cfg st status inp).status.last_cycle_ok = false
    ∧ (runCycle hash cfg st status inp).state.known_markets = st.known_markets
    ∧ (runCycle hash cfg st status inp).state.markets_doc = st.markets_doc
    ∧ ∀ (inp₂ : CycleInput) (ms₂ : List MarketRecord), inp₂.marketsFetch = .ok ms₂ →
        (runCycle hash cfg (runCycle hash cfg st status inp).state
          (runCycle hash cfg st status inp).status inp₂).status.last_cycle_ok = true := by
  refine ⟨?_, ?_, ?_, ?_⟩
  · rw [runCycle_status, hf, market_step_error]
    simp [mark_fail]
  · rw [runCycle_state,
      (notice_step_keeps_markets hash cfg _ inp.dispatchOk inp.noticesStep).1,
      hf, market_step_error]
  · rw [runCycle_state,
      (notice_step_keeps_markets hash cfg _ inp.dispatchOk inp.noticesStep).2,
      hf, market_step_error]
  · intro inp₂ ms₂ h₂
    rw [runCycle_status, h₂, market_step_ok_true]
    simp [mark_ok]

/-- Witness for C5 at a concrete failing cycle followed by a succeeding one. -/
theorem C5_market_fetch_failure_witness :
    (runCycle (fun s => s) c5Cfg c5St initialStatus c5Inp).status.last_cycle_ok = false
    ∧ (runCycle (fun s => s) c5Cfg (runCycle (fun s => s) c5Cfg c5St initialStatus c5Inp).state
        (runCycle (fun s => s) c5Cfg c5St initialStatus c5Inp).status c5Inp2).status.last_cycle_ok
        = true := by
  have h := C5_market_fetch_failure (fun s => s) c5Cfg c5St initialStatus c5Inp rfl
  exact ⟨h.1, h.2.2.2 c5Inp2 _ rfl⟩

/-- C9: a failed cycle only flips the ok flag — `last_cycle_at` is
unchanged, so the health timestamp always belongs to the most recent
successful cycle; a successful cycle stamps its own time; before any
cycle, the endpoint reports ok with a null timestamp. -/
theorem C9_mark_fail_frame (hash : String → String) (cfg : Config) (st : LoopState)
    (status : Status) (inp : CycleInput) :
    ((runCycle hash cfg st status inp).status.last_cycle_ok = false →
        (runCycle hash cfg st status inp).status.last_cycle_at = status.last_cycle_at)
    ∧ ((runCycle hash cfg st status inp).status.last_cycle_ok = true →
        (runCycle hash cfg st status inp).status.last_cycle_at = some inp.now)
    ∧ (∀ s : Status, mark_fail s
        = { last_cycle_ok := false, last_cycle_at := s.last_cycle_at })
    ∧ health initialStatus cfg.filter_markets = (true, none, cfg.filter_markets) := by
  refine ⟨?_, ?_, fun s => rfl, rfl⟩
  · rw [runCycle_status]
    split
    · simp [mark_ok]
    · simp [mark_fail]
  · rw [runCycle_status]
    split
    · simp [mark_ok]
    · simp [mark_fail]

/-- Witness for C9 at a concrete failing cycle. -/
theorem C9_mark_fail_frame_witness :
    (runCycle (fun s => s) c9Cfg c9St initialStatus c9Inp).status.last_cycle_at
      = initialStatus.last_cycle_at :=
  (C9_mark_fail_frame (fun s => s) c9Cfg c9St initialStatus c9Inp).1 (by decide)

/-- C6: the notice source is fully isolated — request-level failures make
the adapter return `[]` rather than raise, and whatever happens in the
notice step (including an unexpected exception), the cycle's market diff,
notification and persistence are exactly what they would be under any
other notice outcome, with status `ok: true` whenever the market step
succeeded. -/
theorem C6_notice_failure_isolated (hash : String → String) (cfg : Config)
    (st : LoopState) (status : Status) (inp inp' : CycleInput)
    (hm : inp.marketsFetch = inp'.marketsFetch) (hn : inp.now = inp'.now)
    (hd : inp.dispatchOk = inp'.dispatchOk) :
    fetch_listing_notices hash .timeout = []
    ∧ fetch_listing_notices hash .reqError = []
    ∧ (runCycle hash cfg st status inp).state.known_markets
        = (runCycle hash cfg st status inp').state.known_markets
    ∧ (runCycle hash cfg st status inp).state.markets_doc
        = (runCycle hash cfg st status inp').state.markets_doc
    ∧ (runCycle hash cfg st status inp).notifiedMarkets
        = (runCycle hash cfg st status inp').notifiedMarkets
    ∧ (runCycle hash cfg st status inp).status = (runCycle hash cfg st status inp').status
    ∧ (∀ ms, inp.marketsFetch = .ok ms →
        (runCycle hash cfg st status inp).status.last_cycle_ok = true) := by
  refine ⟨rfl, rfl, ?_, ?_, ?_, ?_, ?_⟩
  · rw [runCycle_state, runCycle_state,
      (notice_step_keeps_markets hash cfg _ inp.dispatchOk inp.noticesStep).1,
      (notice_step_keeps_markets hash cfg _ inp'.dispatchOk inp'.noticesStep).1,
      hm, hd]
  · rw [runCycle_state, runCycle_state,
      (notice_step_keeps_markets hash cfg _ inp.dispatchOk inp.noticesStep).2,
      (notice_step_keeps_markets hash cfg _ inp'.dispatchOk inp'.noticesStep).2,
      hm, hd]
  · rw [runCycle_notifiedMarkets, runCycle_notifiedMarkets, hm, hd]
  · rw [runCycle_status, runCycle_status, hm, hd, hn]
  · intro ms hms
    rw [runCycle_status, hms, market_step_ok_true]
    simp [mark_ok]

/-- Witness for C6: a cycle whose notice step raises versus one whose
notice request merely times out. -/
theorem C6_notice_failure_isolated_witness :
    (runCycle (fun s => s) c6Cfg c6St initialStatus c6Inp).status
      = (runCycle (fun s => s) c6Cfg c6St initialStatus c6Inp').status
    ∧ (runCycle (fun s => s) c6Cfg c6St initialStatus c6Inp).status.last_cycle_ok = true := by
  have h := C6_notice_failure_isolated (fun s => s) c6Cfg c6St initialStatus
    c6Inp c6Inp' rfl rfl rfl
  exact ⟨h.2.2.2.2.2.1, h.2.2.2.2.2.2 [] rfl⟩

/-- C7: a notification dispatch failure is absorbed inside `send_message`:
every observable of the cycle except the recorded dispatch outcomes —
state, status, and the codes/items handed to the notifier — is identical
whether dispatch succeeds or fails, and `send_message` itself returns a
logged outcome rather than raising (no chat id degrades to a logged
skip). -/
theorem C7_dispatch_failure_no_rollback (hash : String → String) (cfg : Config)
    (st : LoopState) (status : Status) (mf : Except Unit (List MarketRecord))
    (ns : Except Unit NoticeFetch) (now : String) (d d' : Bool) :
    (runCycle hash cfg st status ⟨mf, ns, now, d⟩).state
      = (runCycle hash cfg st status ⟨mf, ns, now, d'⟩).state
    ∧ (runCycle hash cfg st status ⟨mf, ns, now, d⟩).status
      = (runCycle hash cfg st status ⟨mf, ns, now, d'⟩).status
    ∧ (runCycle hash cfg st status ⟨mf, ns, now, d⟩).notifiedMarkets
      = (runCycle hash cfg st status ⟨mf, ns, now, d'⟩).notifiedMarkets
    ∧ (runCycle hash cfg st status ⟨mf, ns, now, d⟩).notifiedNotices
      = (runCycle hash cfg st status ⟨mf, ns, now, d'⟩).notifiedNotices
    ∧ (∀ chat text, send_message (some chat) false text = .errorLogged)
    ∧ (∀ text, send_message none d text = .skippedNoChat) := by
  refine ⟨?_, ?_, ?_, ?_, fun chat text => rfl, fun text => rfl⟩
  · rw [runCycle_state, runCycle_state]
    rw [(market_step_dispatch_irrel cfg st d d' mf).1]
    exact (notice_step_dispatch_irrel hash cfg _ d d' ns).1
  · rw [runCycle_status, runCycle_status,
      (market_step_dispatch_irrel cfg st d d' mf).2.2]
  · rw [runCycle_notifiedMarkets, runCycle_notifiedMarkets]
    exact (market_step_dispatch_irrel cfg st d d' mf).2.1
  · rw [runCycle_notifiedNotices, runCycle_notifiedNotices]
    rw [(market_step_dispatch_irrel cfg st d d' mf).1]
    exact (notice_step_dispatch_irrel hash cfg _ d d' ns).2.1

/-- Witness for C7 at a concrete cycle, dispatch succeeding versus
failing. -/
theorem C7_dispatch_failure_no_rollback_witness :
    (runCycle (fun s => s) c1Cfg c1St initialStatus
        ⟨.ok c1Records, .ok (.ok []), "t1", true⟩).state
      = (runCycle (fun s => s) c1Cfg c1St initialStatus
        ⟨.ok c1Records, .ok (.ok []), "t1", false⟩).state :=
  (C7_dispatch_failure_no_rollback (fun s => s) c1Cfg c1St initialStatus
    (.ok c1Records) (.ok (.ok [])) "t1" true false).1

/-- C8: bootstrap never passes anything to the notifier, and running it a
second time over the documents it just wrote, with the identical source
responses, writes the identical documents. -/
theorem C8_bootstrap_idempotent_silent (hash : String → String)
    (mF : Except Unit (List MarketRecord)) (nF : Except Unit NoticeFetch) (d : Docs) :
    (bootstrap_baseline hash mF nF d).sends = []
    ∧ (bootstrap_baseline hash mF nF (bootstrap_baseline hash mF nF d).docs).docs
        = (bootstrap_baseline hash mF nF d).docs := by
  cases mF <;> cases nF <;> simp [bootstrap_baseline]

/-- Witness for C8 at concrete source responses and empty documents. -/
theorem C8_bootstrap_idempotent_silent_witness :
    (bootstrap_baseline (fun s => s) (.ok c1Records) (.ok (.ok []))
        { markets_doc := none, notices_doc := none }).sends = [] :=
  (C8_bootstrap_idempotent_silent (fun s => s) (.ok c1Records) (.ok (.ok []))
    { markets_doc := none, notices_doc := none }).1

/-- C10: when `notify_new_markets` receives the diff that
`detect_new_markets` produced from the same fetched records, every
filtered code is the `market` field of some record, so the `info[mk]`
lookup always succeeds, missing name fields default to empty strings, and
message construction never raises. -/
theorem C10_notify_never_raises (flt : List String) (old : Finset String)
    (ms : List MarketRecord) :
    (∀ c ∈ (detect_new_markets old ms).1.filter (passes_prefix_filter flt),
        ∃ m, recordsIndex ms c = some m ∧ m.market = c)
    ∧ (notify_new_markets flt (detect_new_markets old ms).1 ms).isSome = true
    ∧ (∀ code, marketLine code { market := code, english_name := none, korean_name := none }
        = "• " ++ code ++ " — " ++ "" ++ " / " ++ "") := by
  refine ⟨?_, notify_detect_isSome flt old ms, fun code => rfl⟩
  intro c hc
  exact recordsIndex_eq_some_of_mem
    (mem_detect_fst.mp (List.mem_of_mem_filter hc)).1

/-- Witness for C10: the lookup succeeds for the concrete new market and
the concrete message construction returns a value. -/
theorem C10_notify_never_raises_witness :
    (∃ m, recordsIndex c10Records "KRW-NEW" = some m ∧ m.market = "KRW-NEW")
    ∧ (notify_new_markets ["KRW-"] (detect_new_markets ∅ c10Records).1 c10Records).isSome
        = true :=
  ⟨(C10_notify_never_raises ["KRW-"] ∅ c10Records).1 "KRW-NEW" (by decide),
   (C10_notify_never_raises ["KRW-"] ∅ c10Records).2.1⟩

theorem noticeOfAnchor_eq (hash : String → String) (a : Anchor) (ia : NoticeItem)
    (h : noticeOfAnchor hash a = some ia) :
    ia = { id := takeStr (hash (trimStr a.text ++ "|" ++ resolveHref a.href)) 16
           title := trimStr a.text
           url := resolveHref a.href } := by
  unfold noticeOfAnchor at h
  dsimp only at h
  split at h
  · exact absurd h (by simp)
  · split at h
    · split at h
      · exact (Option.some.inj h).symm
      · exact absurd h (by simp)
    · exact absurd h (by simp)

/-- C2 counterexample: with the market document absent but the notice
document present — so at least one baseline document exists — the startup
check still runs bootstrap, contradicting "when at least one of the two
documents already exists, bootstrap does not run". -/
theorem C2_counterexample_one_present_still_runs :
    ({ markets_doc := none, notices_doc := some ∅ } : Docs).notices_doc.isSome = true
    ∧ (startup_check (fun s => s) (.ok []) (.ok (.ok []))
        { markets_doc := none, notices_doc := some ∅ }).bootstrapRan = true := by
  exact ⟨rfl, by decide⟩

/-- C2 (amended): bootstrap runs if and only if at least one of the two
baseline documents is absent at startup; it is skipped — leaving the
documents untouched — only when both exist, and when it runs the
documents are exactly `bootstrap_baseline`'s output. -/
theorem C2_amended_bootstrap_iff_any_absent (hash : String → String)
    (mF : Except Unit (List MarketRecord)) (nF : Except Unit NoticeFetch) (d : Docs) :
    (startup_check hash mF nF d).bootstrapRan
        = (d.markets_doc.isNone || d.notices_doc.isNone)
    ∧ ((startup_check hash mF nF d).bootstrapRan = false →
        (startup_check hash mF nF d).docs = d)
    ∧ ((startup_check hash mF nF d).bootstrapRan = true →
        (startup_check hash mF nF d).docs = (bootstrap_baseline hash mF nF d).docs) := by
  unfold startup_check
  split <;> simp_all [Option.isSome_iff_ne_none]

/-- Witness for the amended C2: with both documents present nothing runs
and the documents are untouched. -/
theorem C2_amended_bootstrap_iff_any_absent_witness :
    (startup_check (fun s => s) (.ok []) (.ok (.ok []))
        { markets_doc := some ∅, notices_doc := some ∅ }).docs
      = { markets_doc := some ∅, notices_doc := some ∅ } :=
  (C2_amended_bootstrap_iff_any_absent (fun s => s) (.ok []) (.ok (.ok []))
    { markets_doc := some ∅, notices_doc := some ∅ }).2.1 (by decide)

/-- C3 counterexample: starting from an empty baseline, cycle 1 fetches
only `KRW-AAA` (which is notified and becomes the whole baseline), and
cycle 2 fetches only `KRW-BBB`; the baseline is then replaced by
`{KRW-BBB}`, so it is not a superset of the previous cycle's baseline and
no longer contains the previously-notified code `KRW-AAA` — refuting both
the monotonic-growth claim and the always-a-superset-of-everything-ever-
notified claim for markets. -/
theorem C3_counterexample_baseline_shrinks :
    "KRW-AAA" ∈ (runCycles (fun s => s) c3Cfg c3St initialStatus
        [c3Inp1]).state.known_markets
    ∧ "KRW-AAA" ∈ (runCycles (fun s => s) c3Cfg c3St initialStatus
        [c3Inp1, c3Inp2]).notifiedMarketsAll
    ∧ "KRW-AAA" ∉ (runCycles (fun s => s) c3Cfg c3St initialStatus
        [c3Inp1, c3Inp2]).state.known_markets := by
  refine ⟨by decide, by decide, by decide⟩

/-- C3 (amended): the known notice-id set genuinely grows monotonically
and always contains every id ever passed to the notifier; for markets the
guarantee is per-cycle and conditional — every code notified in a cycle
is in that cycle's resulting baseline, and the baseline grows
monotonically only when the fetched current set still contains all
previously-known codes (a wholesale replacement drops vanished codes). -/
theorem C3_amended_monotonicity (hash : String → String) (cfg : Config)
    (st : LoopState) (status : Status) (inp : CycleInput) :
    (∀ c ∈ (runCycle hash cfg st status inp).notifiedMarkets,
        c ∈ (runCycle hash cfg st status inp).state.known_markets)
    ∧ st.known_notice_ids ⊆ (runCycle hash cfg st status inp).state.known_notice_ids
    ∧ (∀ inps : List CycleInput,
        ∀ n ∈ (runCycles hash cfg st status inps).notifiedNoticesAll,
          n.id ∈ (runCycles hash cfg st status inps).state.known_notice_ids)
    ∧ (∀ ms, inp.marketsFetch = .ok ms →
        st.known_markets ⊆ (detect_new_markets st.known_markets ms).2 →
        st.known_markets ⊆ (runCycle hash cfg st status inp).state.known_markets) := by
  refine ⟨?_, runCycle_notice_mono hash cfg st status inp,
    fun inps => runCycles_notified_notices_known hash cfg inps st status, ?_⟩
  · intro c hc
    rw [runCycle_notifiedMarkets] at hc
    rw [runCycle_state,
      (notice_step_keeps_markets hash cfg _ inp.dispatchOk inp.noticesStep).1]
    cases hmf : inp.marketsFetch with
    | error e =>
      rw [hmf, market_step_error] at hc
      exact absurd hc (by simp)
    | ok ms =>
      rw [hmf, market_step_ok_notified] at hc
      have hmem : c ∈ (detect_new_markets st.known_markets ms).1 :=
        List.mem_of_mem_filter hc
      have hemp : (detect_new_markets st.known_markets ms).1.isEmpty = false := by
        cases h : (detect_new_markets st.known_markets ms).1 with
        | nil => rw [h] at hmem; exact absurd hmem (by simp)
        | cons x t => rfl
      rw [market_step_ok_st, hemp]
      simpa using detect_fst_subset_snd hmem
  · intro ms hmf hsub
    rw [runCycle_state,
      (notice_step_keeps_markets hash cfg _ inp.dispatchOk inp.noticesStep).1,
      hmf, market_step_ok_st]
    cases hemp : (detect_new_markets st.known_markets ms).1.isEmpty with
    | true => simp
    | false => simpa using hsub

/-- Witness for the amended C3: the concretely notified code is in the
resulting baseline. -/
theorem C3_amended_monotonicity_witness :
    "KRW-AAA" ∈ (runCycle (fun s => s) c3Cfg c3St initialStatus c3Inp1).state.known_markets :=
  (C3_amended_monotonicity (fun s => s) c3Cfg c3St initialStatus c3Inp1).1
    "KRW-AAA" (by decide)

/-- C4 counterexample: for an anchor that passes both title filters, a
fetch returning the same anchor twice produces two items with the same
fingerprint, both of which survive the freshness filter and are passed to
the notifier in the same cycle — the pair appears twice in the single
notice message, refuting "notified at most once even when both entries
are returned in the same fetch". -/
theorem C4_counterexample_duplicate_pair_notified_twice :
    noticeOfAnchor (fun s => s) c4Anchor = some c4Item
    ∧ ¬ (((runCycle (fun s => s) c4Cfg c4St initialStatus c4Inp).notifiedNotices.count
          c4Item) ≤ 1)
    ∧ ((runCycle (fun s => s) c4Cfg c4St initialStatus c4Inp).notifiedNotices.count
          c4Item) = 2 := by
  refine ⟨by decide, by decide, by decide⟩

/-- C4 (amended): entries with identical trimmed title and identical
resolved URL get the same fingerprint id; all fresh items of a cycle are
batched into at most one notice send; every notified item's id enters the
known set in the same cycle and an id already in the known set is never
notified again — but within a single fetch the duplicated pair is passed
to the notifier twice (no in-fetch collapse). -/
theorem C4_amended_fingerprint_dedup (hash : String → String) (a b : Anchor)
    (ia ib : NoticeItem) (cfg : Config) (st : LoopState) (status : Status)
    (inp : CycleInput)
    (ha : noticeOfAnchor hash a = some ia) (hb : noticeOfAnchor hash b = some ib)
    (ht : trimStr a.text = trimStr b.text)
    (hu : resolveHref a.href = resolveHref b.href) :
    ia.id = ib.id
    ∧ (notice_step hash cfg st inp.dispatchOk inp.noticesStep).sends.length ≤ 1
    ∧ (∀ n ∈ (runCycle hash cfg st status inp).notifiedNotices,
        n.id ∈ (runCycle hash cfg st status inp).state.known_notice_ids)
    ∧ (∀ n ∈ (runCycle hash cfg st status inp).notifiedNotices,
        n.id ∉ st.known_notice_ids) := by
  refine ⟨?_, notice_step_sends_le_one hash cfg st inp.dispatchOk inp.noticesStep,
    runCycle_notified_notices_known hash cfg st status inp, ?_⟩
  · rw [noticeOfAnchor_eq hash a ia ha, noticeOfAnchor_eq hash b ib hb, ht, hu]
  · intro n hn
    rw [runCycle_notifiedNotices] at hn
    have hfresh := notice_step_notified_fresh hash cfg _ inp.dispatchOk
      inp.noticesStep n hn
    rwa [(market_step_keeps_notices cfg st inp.dispatchOk inp.marketsFetch).1] at hfresh

/-- Witness for the amended C4: the relative-href and absolute-href
duplicates of the same announcement carry the same id, and that id is not
yet known before its first cycle. -/
theorem C4_amended_fingerprint_dedup_witness :
    c4Item.id ∉ c4St.known_notice_ids :=
  (C4_amended_fingerprint_dedup (fun s => s) c4Anchor c4AnchorAbs c4Item c4Item
    c4Cfg c4St initialStatus c4Inp (by decide) (by decide) (by decide) (by decide)).2.2.2
    c4Item (by decide)

end UpbitBot
